import Mathlib

/-!
Verification of the decode pipeline in bacpypes3/analysis.py.

The module is shallowly embedded: byte strings are lists of naturals,
the external per-type codecs (LPDU/NPDU/APDU decoding, the BVLL and NPDU
registries, APCISequence refinement) are oracle functions collected in a
`Codecs` structure, and every Python function of the module becomes a Lean
function of the same name.  A raised Python exception that the module does
not catch is modelled by `Except.error` carrying a tag for the raise site;
a caught one is folded into the branch the handler takes, exactly as in
the source.
-/

namespace Analysis

/-- Byte strings (Python bytes) as lists of byte values. -/
abbrev Bytes := List Nat

/-- Lowercase hexadecimal digit. -/
def hexChar (n : Nat) : Char :=
  if n < 10 then Char.ofNat (48 + n) else Char.ofNat (87 + n)

/-- Two lowercase hex digits of one byte. -/
def byteHex (b : Nat) : String :=
  String.mk [hexChar (b / 16 % 16), hexChar (b % 16)]

/-- btox from the debugging module: the hex of each byte joined by a separator. -/
def btox (s : Bytes) (sep : String) : String :=
  String.intercalate sep (s.map byteHex)

/-- socket.inet_ntoa: dotted decimal rendering of four bytes (callers of
decode_ip guarantee the slice has four bytes). -/
def inet_ntoa (s : Bytes) : String :=
  String.intercalate "." ((s.take 4).map (fun b => toString b))

/-- struct.unpack of a big-endian unsigned short from two bytes (callers
guard the slice length before unpacking). -/
def be16 (a b : Nat) : Nat := a * 256 + b

/-- Payload of an Address object: built from a MAC or dotted string, from an
(ip, port) tuple, or an opaque value produced by the external codecs. -/
inductive AddrVal where
  | ofString (s : String)
  | ipPort (s : String) (port : Nat)
  | ext (n : Nat)
deriving DecidableEq, Repr

/-- A value used as a pdu source or destination.  `mk` is a real Address
object together with its optional addrRoute attribute; `str` is a plain
Python string (the IPv4 branch of the packet decoders stores the raw dotted
string without wrapping it in Address). -/
inductive Address where
  | mk (val : AddrVal) (addrRoute : Option Address)
  | str (s : String)

/-- Equality of Address values is decidable (hand-rolled because of the
nested recursion through Option). -/
def Address.decEq : (a b : Address) → Decidable (a = b)
  | .str s, .str t =>
    if h : s = t then .isTrue (by subst h; rfl)
    else .isFalse (by intro k; injection k with k1; exact h k1)
  | .str _, .mk _ _ => .isFalse (fun h => Address.noConfusion h)
  | .mk _ _, .str _ => .isFalse (fun h => Address.noConfusion h)
  | .mk v r, .mk w t =>
    if hv : v = w then
      match r, t with
      | none, none => .isTrue (by subst hv; rfl)
      | none, some _ => .isFalse (by intro k; injection k with k1 k2; exact Option.noConfusion k2)
      | some _, none => .isFalse (by intro k; injection k with k1 k2; exact Option.noConfusion k2)
      | some x, some y =>
        match Address.decEq x y with
        | .isTrue hx => .isTrue (by subst hv; subst hx; rfl)
        | .isFalse hx =>
          .isFalse (by intro k; injection k with k1 k2; injection k2 with k3; exact hx k3)
    else .isFalse (by intro k; injection k with k1 k2; exact hv k1)

instance : DecidableEq Address := Address.decEq

/-- Assignment of the addrRoute attribute, addr.addrRoute = r: succeeds on an
Address object, raises AttributeError (modelled as none) on a plain string. -/
def trySetRoute : Address → Address → Option Address
  | .mk v _, r => some (.mk v (some r))
  | .str _, _ => none

/-- The common PDU envelope: payload plus source and destination. -/
structure PDU where
  pduData : Bytes
  pduSource : Address
  pduDestination : Address
deriving DecidableEq

/-- The BVLL function kinds that decode_lpdu distinguishes.  The registry
bvll_pdu_types itself lives in the external bvll module; `otherKnown` covers
every registered kind outside the four named ones. -/
inductive BvllKind where
  | forwardedNPDU
  | distributeBroadcastToNetwork
  | originalUnicastNPDU
  | originalBroadcastNPDU
  | otherKnown (n : Nat)
deriving DecidableEq

/-- A link-layer record as produced by the external BVLL codec.  Only the
fields the analysis module reads are modelled. -/
structure LPDU where
  bvlciFunction : Nat
  bvlciAddress : Option Address
  pduData : Bytes
  pduSource : Address
  pduDestination : Address
deriving DecidableEq

/-- decode_lpdu returns Union[PDU, LPDU]: `asPdu` is the unchanged original
object (identity-equal to the input, so `lpdu != pdu` is false), `asLpdu` a
codec-produced record (a distinct object, so `lpdu != pdu` is true). -/
inductive LinkResult where
  | asPdu (p : PDU)
  | asLpdu (l : LPDU)
deriving DecidableEq

/-- Payload of either variant of a link-layer result. -/
def LinkResult.pduData : LinkResult → Bytes
  | .asPdu p => p.pduData
  | .asLpdu l => l.pduData

/-- A network-layer record as produced by the external NPDU codec. -/
structure NPDU where
  npduNetMessage : Option Nat
  npduSADR : Option Address
  npduDADR : Option Address
  pduData : Bytes
  pduSource : Address
  pduDestination : Address
deriving DecidableEq

/-- An application-layer record as produced by the external APDU codec.
`apci` is an opaque identifier of the decoded header content;
`apciSequenceKind` models membership in (ConfirmedRequestPDU, ComplexAckPDU,
UnconfirmedRequestPDU). -/
structure APDU where
  apci : Nat
  apciSequenceKind : Bool
  pduSource : Address
  pduDestination : Address
deriving DecidableEq

/-- Result of APCISequence.decode: a refined APDU, an AttributeError (the
one exception decode_apdu catches there), or any other fault (which
decode_apdu lets propagate). -/
inductive ApciResult where
  | ok (a : APDU)
  | attrError
  | otherError
deriving DecidableEq

/-- The external codec capabilities, out of scope per the spec and treated
as opaque decode(bytes) to record-or-fault oracles.  `none` models a raised
fault.  `bvllFresh` models the freshly constructed, still-undecoded instance
atype() that decode_lpdu builds before calling atype.decode. -/
structure Codecs where
  lpduDecode : PDU → Option LPDU
  bvllKind : Nat → Option BvllKind
  bvllFresh : BvllKind → LPDU
  bvllDecode : BvllKind → LPDU → Option LPDU
  npduDecode : LinkResult → Option NPDU
  npduKnown : Nat → Bool
  ntypeDecode : Nat → NPDU → Option NPDU
  apduDecode : NPDU → Option APDU
  apciDecode : APDU → ApciResult

/-- Uncaught Python exceptions, tagged by the site that raises them. -/
inductive Fault where
  | ethBounds
  | vlanBounds
  | ipBounds
  | udpBounds
  | lpduIndex
  | npduIndex
  | apduLiftAttr
  | apciFault
  | nameFault
deriving DecidableEq

/-- Equality of Except values is decidable when it is on both sides. -/
instance {ε α : Type} [DecidableEq ε] [DecidableEq α] :
    DecidableEq (Except ε α) := fun x y =>
  match x, y with
  | .ok a, .ok b =>
    if h : a = b then .isTrue (by rw [h])
    else .isFalse (by intro k; injection k with k1; exact h k1)
  | .error a, .error b =>
    if h : a = b then .isTrue (by rw [h])
    else .isFalse (by intro k; injection k with k1; exact h k1)
  | .ok _, .error _ => .isFalse (fun k => Except.noConfusion k)
  | .error _, .ok _ => .isFalse (fun k => Except.noConfusion k)

/-- Dictionary produced by decode_ethernet. -/
structure EthFrame where
  destination_address : String
  source_address : String
  type : Nat
  data : Bytes
deriving DecidableEq

/-- decode_ethernet: fixed 14-byte header; struct.unpack on s[12:14] faults
when fewer than 14 bytes are available, the leading slices never fault. -/
def decode_ethernet (s : Bytes) : Except Fault EthFrame :=
  if s.length < 14 then .error .ethBounds
  else .ok {
    destination_address := btox (s.take 6) ":"
    source_address := btox ((s.drop 6).take 6) ":"
    type := be16 (s.getD 12 0) (s.getD 13 0)
    data := s.drop 14 }

/-- Dictionary produced by decode_vlan. -/
structure VlanFrame where
  priority : Nat
  cfi : Nat
  vlan : Nat
  type : Nat
  data : Bytes
deriving DecidableEq

/-- decode_vlan: 4-byte 802.1Q tag; the two unpacks fault when fewer than
4 bytes are available. -/
def decode_vlan (s : Bytes) : Except Fault VlanFrame :=
  if s.length < 4 then .error .vlanBounds
  else
    let x := be16 (s.getD 0 0) (s.getD 1 0)
    .ok {
      priority := (x >>> 13) &&& 0x07
      cfi := (x >>> 12) &&& 0x01
      vlan := x &&& 0x0FFF
      type := be16 (s.getD 2 0) (s.getD 3 0)
      data := s.drop 4 }

/-- Dictionary produced by decode_ip. -/
structure IpPacket where
  version : Nat
  header_len : Nat
  tos : Nat
  total_len : Nat
  id : Nat
  flags : Nat
  fragment_offset : Nat
  ttl : Nat
  protocol : String
  checksum : Nat
  source_address : String
  destination_address : String
  options : Option Bytes
  data : Bytes
deriving DecidableEq

/-- The _protocols map with the hex fallback of dict.get; the numeric keys
are the standard socket IPPROTO constants. -/
def protocolName (b : Nat) : String :=
  if b = 6 then "tcp"
  else if b = 17 then "udp"
  else if b = 1 then "icmp"
  else "0x" ++ byteHex b ++ " ?"

/-- decode_ip: the field accesses and the two inet_ntoa calls fault when
fewer than 20 bytes are available.  Note the options slice is taken as
s[20 : 4 * (header_len - 5)], exactly as the source computes it. -/
def decode_ip (s : Bytes) : Except Fault IpPacket :=
  if s.length < 20 then .error .ipBounds
  else
    let hl := s.getD 0 0 &&& 0x0F
    .ok {
      version := (s.getD 0 0 &&& 0xF0) >>> 4
      header_len := hl
      tos := s.getD 1 0
      total_len := be16 (s.getD 2 0) (s.getD 3 0)
      id := be16 (s.getD 4 0) (s.getD 5 0)
      flags := (s.getD 6 0 &&& 0xE0) >>> 5
      fragment_offset := be16 (s.getD 6 0) (s.getD 7 0) &&& 0x1F
      ttl := s.getD 8 0
      protocol := protocolName (s.getD 9 0)
      checksum := be16 (s.getD 10 0) (s.getD 11 0)
      source_address := inet_ntoa ((s.drop 12).take 4)
      destination_address := inet_ntoa ((s.drop 16).take 4)
      options := if hl > 5 then some ((s.take (4 * (hl - 5))).drop 20) else none
      data := s.drop (4 * hl) }

/-- Dictionary produced by decode_udp. -/
structure UdpDatagram where
  source_port : Nat
  destination_port : Nat
  length : Nat
  checksum : Nat
  data : Bytes
deriving DecidableEq

/-- decode_udp: fixed 8-byte header, faulting below 8 bytes; the payload is
s[8 : 8 + length - 8], i.e. trimmed to the declared length. -/
def decode_udp (s : Bytes) : Except Fault UdpDatagram :=
  if s.length < 8 then .error .udpBounds
  else
    let len := be16 (s.getD 4 0) (s.getD 5 0)
    .ok {
      source_port := be16 (s.getD 0 0) (s.getD 1 0)
      destination_port := be16 (s.getD 2 0) (s.getD 3 0)
      length := len
      checksum := be16 (s.getD 6 0) (s.getD 7 0)
      data := (s.drop 8).take (len - 8) }

/-- decode_lpdu.  The first payload byte is read without a length guard, so
an empty payload raises IndexError.  A structural or typed decode fault is
caught and rolls back (to the original pdu, resp. the structural record).
For the forwarded-NPDU kind the source reads the address off the freshly
constructed instance bpdu = atype() (external constructor code, not under
src); per the spec that body record carries the embedded address of the
forwarded originator.  The addrRoute assignment happens on the very object
bpdu.bvlciAddress, so the returned variant shows the mutation too; an
AttributeError from that assignment is caught by the surrounding try. -/
def decode_lpdu (c : Codecs) (route_aware : Bool) (pdu : PDU) :
    Except Fault (LinkResult × Option LPDU) :=
  match pdu.pduData with
  | [] => .error .lpduIndex
  | b :: _ =>
    if b ≠ 0x81 then .ok (.asPdu pdu, none)
    else
      match c.lpduDecode pdu with
      | none => .ok (.asPdu pdu, none)
      | some lpdu =>
        match c.bvllKind lpdu.bvlciFunction with
        | none => .ok (.asLpdu lpdu, none)
        | some atype =>
          let xpdu := lpdu
          let bpdu := c.bvllFresh atype
          match c.bvllDecode atype lpdu with
          | none => .ok (.asLpdu xpdu, none)
          | some lpdu2 =>
            if atype = .forwardedNPDU then
              let old_pdu_source := lpdu2.pduSource
              match route_aware, bpdu.bvlciAddress with
              | true, some a =>
                match trySetRoute a old_pdu_source with
                | none => .ok (.asLpdu xpdu, none)
                | some newSource =>
                  .ok (.asLpdu { lpdu2 with pduSource := newSource },
                       some { bpdu with bvlciAddress := some newSource })
              | _, _ => .ok (.asLpdu lpdu2, some bpdu)
            else
              -- the early return for non-wrapping kinds and the fall-through
              -- return produce the same value (lpdu, bpdu)
              .ok (.asLpdu lpdu2, some bpdu)

/-- decode_npdu.  The version byte is read without a length guard, so an
empty payload raises IndexError.  A fault from NPDU.decode is caught and
converted to None; a fault from the specialized ntype.decode is caught and
the generic header kept. -/
def decode_npdu (c : Codecs) (pdu : LinkResult) : Except Fault (Option NPDU) :=
  match pdu.pduData with
  | [] => .error .npduIndex
  | b :: _ =>
    if b ≠ 0x01 then .ok none
    else
      match c.npduDecode pdu with
      | none => .ok none
      | some npdu =>
        match npdu.npduNetMessage with
        | none => .ok (some npdu)
        | some msg =>
          if ¬ c.npduKnown msg then .ok (some npdu)
          else
            match c.ntypeDecode msg npdu with
            | none => .ok (some npdu)
            | some npdu2 => .ok (some npdu2)

/-- decode_apdu.  Network-layer messages and APDU.decode faults yield None.
The address lifting is outside any try: an AttributeError from assigning
addrRoute on a non-Address source propagates.  The APCISequence refinement
catches AttributeError only; any other fault propagates. -/
def decode_apdu (c : Codecs) (route_aware : Bool) (npdu : NPDU) :
    Except Fault (Option APDU) :=
  if npdu.npduNetMessage.isSome then .ok none
  else
    match c.apduDecode npdu with
    | none => .ok none
    | some apdu =>
      let srcStep : Except Fault Address :=
        match npdu.npduSADR with
        | some sadr =>
          if route_aware then
            match trySetRoute sadr npdu.pduSource with
            | none => .error .apduLiftAttr
            | some s => .ok s
          else .ok sadr
        | none => .ok npdu.pduSource
      match srcStep with
      | .error e => .error e
      | .ok src =>
        let dst :=
          match npdu.npduDADR with
          | some dadr => dadr
          | none => npdu.pduDestination
        let apdu2 := { apdu with pduSource := src, pduDestination := dst }
        if apdu2.apciSequenceKind then
          match c.apciDecode apdu2 with
          | .ok a => .ok (some a)
          | .attrError => .ok (some apdu2)
          | .otherError => .error .apciFault
        else .ok (some apdu2)

/-- The union type returned by decode_packet: the deepest layer reached. -/
inductive DecodeResult where
  | asPdu (p : PDU)
  | asLpdu (l : LPDU)
  | asNpdu (n : NPDU)
  | asApdu (a : APDU)
deriving DecidableEq

/-- Injection of a link-layer result into the decode_packet result union. -/
def linkToResult : LinkResult → DecodeResult
  | .asPdu p => .asPdu p
  | .asLpdu l => .asLpdu l

/-- decode_packet.  The Ethernet branch assigns pdu_source and
pdu_destination (snake case) but the PDU is later built from pduSource and
pduDestination (camel case), names bound only inside the IPv4 branch:
on every path that skips that branch the build raises UnboundLocalError,
modelled as nameFault.  The empty-payload check precedes the build, exactly
as in the source. -/
def decode_packet (c : Codecs) (route_aware : Bool) (data0 : Bytes) :
    Except Fault (Option DecodeResult) :=
  if data0 = [] then .ok none
  else
    match decode_ethernet data0 with
    | .error e => .error e
    | .ok d =>
      let _pdu_source := Address.mk (.ofString d.source_address) none
      let _pdu_destination := Address.mk (.ofString d.destination_address) none
      let data1 := d.data
      let vlanStep : Except Fault (Nat × Bytes) :=
        if d.type = 0x8100 then
          match decode_vlan data1 with
          | .error e => .error e
          | .ok v => .ok (v.type, v.data)
        else .ok (d.type, data1)
      match vlanStep with
      | .error e => .error e
      | .ok (ty, data2) =>
        let ipStep : Except Fault (Option (Address × Address) × Bytes) :=
          if ty = 0x0800 then
            match decode_ip data2 with
            | .error e => .error e
            | .ok ip =>
              if ip.protocol = "udp" then
                match decode_udp ip.data with
                | .error e => .error e
                | .ok u =>
                  .ok (some (Address.mk (.ipPort ip.source_address u.source_port) none,
                             Address.mk (.ipPort ip.destination_address u.destination_port) none),
                       u.data)
              else
                .ok (some (.str ip.source_address, .str ip.destination_address), ip.data)
          else .ok (none, data2)
        match ipStep with
        | .error e => .error e
        | .ok (addrs, dataF) =>
          if dataF = [] then .ok none
          else
            match addrs with
            | none => .error .nameFault
            | some (src, dst) =>
              let pdu : PDU := ⟨dataF, src, dst⟩
              match decode_lpdu c route_aware pdu with
              | .error e => .error e
              | .ok (lpdu, _) =>
                match decode_npdu c lpdu with
                | .error e => .error e
                | .ok none => .ok (some (linkToResult lpdu))
                | .ok (some npdu) =>
                  match decode_apdu c route_aware npdu with
                  | .error e => .error e
                  | .ok (some apdu) => .ok (some (.asApdu apdu))
                  | .ok none => .ok (some (.asNpdu npdu))

/-- The dataclass of the full decoder, all layer fields optional. -/
structure DecodedPacket where
  pdu : PDU
  lpdu : Option LPDU := none
  npdu : Option NPDU := none
  apdu : Option APDU := none
  number : Option Nat := none
  timestamp : Option Nat := none
deriving DecidableEq

/-- decode_packet_full.  Same peeling, but pduSource and pduDestination are
used consistently, so the MAC-string addresses survive on non-IPv4 paths;
the layers are accumulated into a DecodedPacket.  The lpdu field is set only
when the link result is a distinct object (lpdu != pdu). -/
def decode_packet_full (c : Codecs) (route_aware : Bool) (data0 : Bytes) :
    Except Fault (Option DecodedPacket) :=
  if data0 = [] then .ok none
  else
    match decode_ethernet data0 with
    | .error e => .error e
    | .ok d =>
      let pduSource0 := Address.mk (.ofString d.source_address) none
      let pduDestination0 := Address.mk (.ofString d.destination_address) none
      let data1 := d.data
      let vlanStep : Except Fault (Nat × Bytes) :=
        if d.type = 0x8100 then
          match decode_vlan data1 with
          | .error e => .error e
          | .ok v => .ok (v.type, v.data)
        else .ok (d.type, data1)
      match vlanStep with
      | .error e => .error e
      | .ok (ty, data2) =>
        let ipStep : Except Fault (Address × Address × Bytes) :=
          if ty = 0x0800 then
            match decode_ip data2 with
            | .error e => .error e
            | .ok ip =>
              if ip.protocol = "udp" then
                match decode_udp ip.data with
                | .error e => .error e
                | .ok u =>
                  .ok (Address.mk (.ipPort ip.source_address u.source_port) none,
                       Address.mk (.ipPort ip.destination_address u.destination_port) none,
                       u.data)
              else
                .ok (.str ip.source_address, .str ip.destination_address, ip.data)
          else .ok (pduSource0, pduDestination0, data2)
        match ipStep with
        | .error e => .error e
        | .ok (src, dst, dataF) =>
          if dataF = [] then .ok none
          else
            let pdu : PDU := ⟨dataF, src, dst⟩
            match decode_lpdu c route_aware pdu with
            | .error e => .error e
            | .ok (lpdu, _) =>
              let r1 : DecodedPacket :=
                match lpdu with
                | .asPdu _ => { pdu := pdu }
                | .asLpdu l => { pdu := pdu, lpdu := some l }
              match decode_npdu c lpdu with
              | .error e => .error e
              | .ok none => .ok (some r1)
              | .ok (some npdu) =>
                match decode_apdu c route_aware npdu with
                | .error e => .error e
                | .ok none => .ok (some { r1 with npdu := some npdu })
                | .ok (some apdu) =>
                  .ok (some { r1 with npdu := some npdu, apdu := some apdu })

/-- The deepest populated layer field of a DecodedPacket, in the priority
order apdu, npdu, lpdu, pdu. -/
def DecodedPacket.deepest (dp : DecodedPacket) : DecodeResult :=
  match dp.apdu with
  | some a => .asApdu a
  | none =>
    match dp.npdu with
    | some n => .asNpdu n
    | none =>
      match dp.lpdu with
      | some l => .asLpdu l
      | none => .asPdu dp.pdu

/-- One pcap record as unpacked by the reader loop: (len, timestamp, data);
the len component is never used.  The float timestamp is modelled opaquely
as a natural number (the module only copies it around). -/
structure PcapRecord where
  len : Nat
  timestamp : Nat
  data : Bytes
deriving DecidableEq

/-- A yielded item of decode_file: the decoded result together with the
attributes pkt._number and pkt._timestamp attached after decoding. -/
structure NumberedResult where
  pkt : DecodeResult
  number : Nat
  timestamp : Nat
deriving DecidableEq

/-- The decode_file loop from a given enumeration index: records whose
decode yields None or raises any fault are skipped, every other record is
yielded with the 1-based index and the record timestamp attached. -/
def decodeFileFrom (c : Codecs) (route_aware : Bool) :
    Nat → List PcapRecord → List NumberedResult
  | _, [] => []
  | i, r :: rest =>
    match decode_packet c route_aware r.data with
    | .ok (some pkt) =>
      ⟨pkt, i + 1, r.timestamp⟩ :: decodeFileFrom c route_aware (i + 1) rest
    | .ok none => decodeFileFrom c route_aware (i + 1) rest
    | .error _ => decodeFileFrom c route_aware (i + 1) rest

/-- decode_file over an in-memory record list (the pcap reader is external). -/
def decode_file (c : Codecs) (route_aware : Bool) (recs : List PcapRecord) :
    List NumberedResult :=
  decodeFileFrom c route_aware 0 recs

/-- The decode_file_full loop from a given enumeration index: like
decodeFileFrom but the number and timestamp are assigned onto the returned
DecodedPacket before it is yielded. -/
def decodeFileFullFrom (c : Codecs) (route_aware : Bool) :
    Nat → List PcapRecord → List DecodedPacket
  | _, [] => []
  | i, r :: rest =>
    match decode_packet_full c route_aware r.data with
    | .ok (some pkt) =>
      { pkt with number := some (i + 1), timestamp := some r.timestamp } ::
        decodeFileFullFrom c route_aware (i + 1) rest
    | .ok none => decodeFileFullFrom c route_aware (i + 1) rest
    | .error _ => decodeFileFullFrom c route_aware (i + 1) rest

/-- decode_file_full over an in-memory record list. -/
def decode_file_full (c : Codecs) (route_aware : Bool) (recs : List PcapRecord) :
    List DecodedPacket :=
  decodeFileFullFrom c route_aware 0 recs

/-- A tracer class: the initial state (initial_state or self.start) and the
transition its handler performs on one packet; `none` is the terminal state
(current_state left falsy).  Handlers are modelled by the state they leave
behind rather than as raw functions. -/
structure TracerFactory (σ Pkt : Type) where
  init : σ
  step : σ → Pkt → Option σ

/-- One pass of the trace loop body over all tracers for one packet: each
tracer's current handler receives the packet; a tracer left without a
current state is immediately replaced in place by a fresh instance from its
factory. -/
def traceStep {σ Pkt : Type} (tracers : List (TracerFactory σ Pkt))
    (current : List σ) (pkt : Pkt) : List σ :=
  (tracers.zip current).map fun ct =>
    match ct.1.step ct.2 pkt with
    | some s => s
    | none => ct.1.init

/-- The tracer states after trace has consumed a decoded-packet stream,
starting from one fresh instance per factory. -/
def traceRun {σ Pkt : Type} (tracers : List (TracerFactory σ Pkt))
    (pkts : List Pkt) : List σ :=
  pkts.foldl (traceStep tracers) (tracers.map (fun t => t.init))

/-- An oracle instance on which every external decode faults and every
registry lookup misses. -/
def noCodecs : Codecs where
  lpduDecode _ := none
  bvllKind _ := none
  bvllFresh _ := ⟨0, none, [], .str "", .str ""⟩
  bvllDecode _ _ := none
  npduDecode _ := none
  npduKnown _ := false
  ntypeDecode _ _ := none
  apduDecode _ := none
  apciDecode _ := .attrError

/-- A 15-byte Ethernet frame: zero MACs, ethertype 0x0000, payload [0x42]. -/
def ethOtherFrame : Bytes := [0, 0, 0, 0, 0, 0, 0, 0, 0, 0, 0, 0, 0, 0, 0x42]

/-- A 14-byte frame with ethertype 0x0800 and nothing after the header. -/
def ipTruncFrame : Bytes := [0, 0, 0, 0, 0, 0, 0, 0, 0, 0, 0, 0, 0x08, 0x00]

/-- A 14-byte frame with unknown ethertype and empty payload. -/
def ethEmptyFrame : Bytes := [0, 0, 0, 0, 0, 0, 0, 0, 0, 0, 0, 0, 0, 0]

/-- A 20-byte IPv4 header: version 4, header length 5, protocol UDP,
source 1.2.3.4, destination 5.6.7.8. -/
def ipHdr : Bytes :=
  [0x45, 0, 0, 0, 0, 0, 0, 0, 0, 17, 0, 0, 1, 2, 3, 4, 5, 6, 7, 8]

/-- An 8-byte UDP header with ports 1 and 2 and the given declared length. -/
def udpHdr (len : Nat) : Bytes := [0, 1, 0, 2, len / 256, len % 256, 0, 0]

/-- An IPv4/UDP Ethernet frame carrying the given UDP payload, with the
declared UDP length matching. -/
def udpFrame (payload : Bytes) : Bytes :=
  [0, 0, 0, 0, 0, 0, 0, 0, 0, 0, 0, 0, 0x08, 0x00] ++ ipHdr ++
    udpHdr (8 + payload.length) ++ payload

/-- The source address the pipeline derives for udpFrame. -/
def udpPduSrc : Address := Address.mk (.ipPort "1.2.3.4" 1) none

/-- The destination address the pipeline derives for udpFrame. -/
def udpPduDst : Address := Address.mk (.ipPort "5.6.7.8" 2) none

/-- A 24-byte IPv4 header with header_len 6 and four option bytes after the
fixed 20. -/
def ipOptsHdr : Bytes :=
  [0x46, 0, 0, 0, 0, 0, 0, 0, 0, 17, 0, 0, 1, 2, 3, 4, 5, 6, 7, 8,
   0xAA, 0xBB, 0xCC, 0xDD]

/-- Addresses used in the forwarded-NPDU scenarios. -/
def aS : Address := Address.mk (.ext 1) none

/-- Destination address of the forwarded-NPDU scenarios. -/
def aD : Address := Address.mk (.ext 2) none

/-- The embedded originator address carried by the forwarded body. -/
def aX : Address := Address.mk (.ext 7) none

/-- Structural BVLL decode result in the forwarded-NPDU scenarios. -/
def fwdStruct : LPDU := ⟨4, none, [0x09], aS, aD⟩

/-- Typed ForwardedNPDU decode result; the body carries aX. -/
def fwdDecoded : LPDU := ⟨4, some aX, [0x09], aS, aD⟩

/-- Fresh ForwardedNPDU instance; it too carries aX, matching the decoded
body. -/
def fwdFresh : LPDU := ⟨4, some aX, [], aS, aD⟩

/-- Oracle for the forwarded-NPDU scenarios. -/
def fwdCodecs : Codecs :=
  { noCodecs with
    lpduDecode := fun _ => some fwdStruct
    bvllKind := fun n => if n = 4 then some .forwardedNPDU else none
    bvllFresh := fun _ => fwdFresh
    bvllDecode := fun _ _ => some fwdDecoded }

/-- The input PDU of the forwarded-NPDU scenarios: a virtual-link frame. -/
def fwdPdu : PDU := ⟨[0x81, 0x04], aS, aD⟩

/-- The link record left by decoding the 4-byte original-unicast BVLL frame
81 0a 00 04: the header consumes all four bytes, so the payload is empty. -/
def ouEmpty : LPDU := ⟨0x0a, none, [], aS, aD⟩

/-- Oracle for the empty-BVLL scenario: the codec accepts the virtual-link
header and returns a link record with an empty remaining payload. -/
def emptyLpduCodecs : Codecs :=
  { noCodecs with
    lpduDecode := fun _ => some ouEmpty
    bvllKind := fun n => if n = 0x0a then some .originalUnicastNPDU else none
    bvllDecode := fun _ _ => some ouEmpty }

/-- A tracer whose handler terminates immediately on any packet. -/
def haltTracer : TracerFactory Nat Nat := ⟨0, fun _ _ => none⟩

/-- The MAC-string Address the full decoder derives for the zero-MAC
frames. -/
def ethAddr : Address := Address.mk (.ofString "00:00:00:00:00:00") none

/-- A 16-byte Ethernet frame with distinctive MACs, ethertype 0x88B8 and a
two-byte payload. -/
def ethB8Frame : Bytes :=
  [0xDE, 0xAD, 0xBE, 0xEF, 0x00, 0x01, 0xCA, 0xFE, 0xBA, 0xBE, 0x00, 0x02,
   0x88, 0xB8, 0x01, 0x02]

/-- Well-formed capture record number 1. -/
def recGood1 : PcapRecord := ⟨56, 11, udpFrame [0x42]⟩

/-- Malformed capture record number 2: truncated below the Ethernet header,
so decoding raises a bounds fault. -/
def recBad : PcapRecord := ⟨3, 22, [1, 2, 3]⟩

/-- Well-formed capture record number 3. -/
def recGood3 : PcapRecord := ⟨56, 33, udpFrame [0x42]⟩

/-- C1: the claim that the deepest populated layer field of
decode_packet_full equals the result of decode_packet fails: on a non-IPv4
frame decode_packet raises UnboundLocalError (pduSource is bound only in
the IPv4 branch) while decode_packet_full returns a DecodedPacket whose
deepest populated field is the transport pdu. -/
theorem c1_decode_packet_name_bug :
    decode_packet noCodecs false ethOtherFrame = .error .nameFault ∧
    decode_packet_full noCodecs false ethOtherFrame =
      .ok (some { pdu := ⟨[0x42], ethAddr, ethAddr⟩ }) ∧
    Except.map (Option.map DecodedPacket.deepest)
        (decode_packet_full noCodecs false ethOtherFrame) ≠
      decode_packet noCodecs false ethOtherFrame := by
  refine ⟨rfl, rfl, ?_⟩
  decide

/-- C4: the claim that for an ethertype that is neither VLAN (0x8100) nor
IPv4 (0x0800) both entry points pass the Ethernet payload through with
MAC-string addresses and no fault holds for decode_packet_full but fails
for decode_packet, which raises UnboundLocalError on that path. -/
theorem c4_passthrough_name_bug :
    decode_packet_full noCodecs false ethB8Frame =
      .ok (some { pdu := ⟨[0x01, 0x02],
        Address.mk (.ofString "ca:fe:ba:be:00:02") none,
        Address.mk (.ofString "de:ad:be:ef:00:01") none⟩ }) ∧
    decode_packet noCodecs false ethB8Frame = .error .nameFault := by
  exact ⟨rfl, rfl⟩

/-- C7: the claim that for header_len greater than 5 the options field is
the region from offset 20 up to 4 * header_len fails: the source slices
s[20 : 4 * (header_len - 5)], which for a 24-byte header with header_len 6
is empty, while the region the claim describes holds the four option
bytes. -/
theorem c7_options_slice_bug :
    Except.map IpPacket.options (decode_ip ipOptsHdr) = .ok (some []) ∧
    (ipOptsHdr.take (4 * 6)).drop 20 = [0xAA, 0xBB, 0xCC, 0xDD] ∧
    some ([] : Bytes) ≠ some [0xAA, 0xBB, 0xCC, 0xDD] := by
  refine ⟨rfl, rfl, ?_⟩
  decide

/-- C2 (counterexample): a record whose payload starts with the network
version byte 0x01 and whose structural NPDU decode faults is not skipped:
the fault is caught inside decode_npdu (returning None) and the record is
yielded as the link-layer fallback. -/
theorem c2_counterexample :
    noCodecs.npduDecode (.asPdu ⟨[0x01, 0x99], udpPduSrc, udpPduDst⟩) = none ∧
    decode_npdu noCodecs (.asPdu ⟨[0x01, 0x99], udpPduSrc, udpPduDst⟩) = .ok none ∧
    decode_file noCodecs false [⟨42, 7, udpFrame [0x01, 0x99]⟩] =
      [⟨.asPdu ⟨[0x01, 0x99], udpPduSrc, udpPduDst⟩, 1, 7⟩] := by
  exact ⟨rfl, rfl, rfl⟩

/-- C3 (counterexample): a forwarded-broadcast virtual-link frame whose
decoded body carries the embedded address aX, decoded with route-aware mode
off: the record's source stays aS, so no lift occurs, contradicting the
claim that the lift still occurs with route-aware mode off. -/
theorem c3_counterexample :
    decode_lpdu fwdCodecs false fwdPdu = .ok (.asLpdu fwdDecoded, some fwdFresh) ∧
    fwdDecoded.bvlciAddress = some aX ∧
    fwdDecoded.pduSource = aS ∧
    aS ≠ aX := by
  refine ⟨rfl, rfl, rfl, ?_⟩
  decide

/-- C5 (counterexample): decode_file_full reassigns the number and
timestamp fields of the DecodedPacket returned by decode_packet_full before
yielding it, so the yielded value differs from the constructed one. -/
theorem c5_counterexample :
    decode_packet_full noCodecs false ethOtherFrame =
      .ok (some { pdu := ⟨[0x42], ethAddr, ethAddr⟩ }) ∧
    decode_file_full noCodecs false [⟨15, 9, ethOtherFrame⟩] =
      [{ pdu := ⟨[0x42], ethAddr, ethAddr⟩, number := some 1,
         timestamp := some 9 }] ∧
    ({ pdu := ⟨[0x42], ethAddr, ethAddr⟩, number := some 1,
       timestamp := some 9 } : DecodedPacket) ≠
      { pdu := ⟨[0x42], ethAddr, ethAddr⟩ } := by
  refine ⟨rfl, rfl, ?_⟩
  decide

/-- C6 (counterexample): a frame whose ethertype is IPv4 but whose payload
after the Ethernet header is empty does not yield NoPayload: the empty
payload is handed to decode_ip, which raises a bounds fault that
propagates. -/
theorem c6_counterexample :
    decode_packet noCodecs false ipTruncFrame = .error .ipBounds ∧
    decode_packet_full noCodecs false ipTruncFrame = .error .ipBounds ∧
    decode_packet noCodecs false ipTruncFrame ≠ .ok none := by
  refine ⟨rfl, rfl, ?_⟩
  decide

/-- C2 (amended): for a record whose first payload byte matches the network
protocol version, a fault from the structural NPDU decode is caught inside
decode_npdu, which returns None; the pipeline then falls back to the
link-layer record instead of skipping the record. -/
theorem c2_amended_npdu_fault_caught (c : Codecs) (l : LinkResult)
    (rest : Bytes) (h1 : l.pduData = 0x01 :: rest)
    (h2 : c.npduDecode l = none) :
    decode_npdu c l = .ok none := by
  unfold decode_npdu
  rw [h1]
  simp [h2]

/-- C2 (witness): the caught-fault behavior at a concrete record and the
all-faulting oracle. -/
theorem c2_witness :
    decode_npdu noCodecs (.asPdu ⟨[0x01], aS, aD⟩) = .ok none :=
  c2_amended_npdu_fault_caught noCodecs (.asPdu ⟨[0x01], aS, aD⟩) [] rfl rfl

/-- C3 (amended): for a forwarded-broadcast virtual-link frame, the address
lift happens only when route-aware mode is on and the address carried by
the forwarded function body record is present: that address becomes the
record's source with the pre-lift source attached as its route annotation;
with route-aware mode off the source is left unchanged. -/
theorem c3_amended_forwarded_lift (c : Codecs) (pdu : PDU) (rest : Bytes)
    (l l2 : LPDU) (v : AddrVal) (rt : Option Address)
    (h1 : pdu.pduData = 0x81 :: rest)
    (h2 : c.lpduDecode pdu = some l)
    (h3 : c.bvllKind l.bvlciFunction = some .forwardedNPDU)
    (h4 : c.bvllDecode .forwardedNPDU l = some l2)
    (h5 : (c.bvllFresh .forwardedNPDU).bvlciAddress = some (Address.mk v rt)) :
    decode_lpdu c true pdu =
      .ok (.asLpdu { l2 with pduSource := Address.mk v (some l2.pduSource) },
           some { c.bvllFresh .forwardedNPDU with
                    bvlciAddress := some (Address.mk v (some l2.pduSource)) }) ∧
    decode_lpdu c false pdu =
      .ok (.asLpdu l2, some (c.bvllFresh .forwardedNPDU)) := by
  constructor <;>
    (unfold decode_lpdu; rw [h1]; simp [h2, h3, h4, h5, trySetRoute])

/-- C3 (witness): the amended lift behavior at the concrete
forwarded-NPDU oracle, for route-aware mode on and off. -/
theorem c3_witness :
    decode_lpdu fwdCodecs true fwdPdu =
      .ok (.asLpdu { fwdDecoded with pduSource := Address.mk (.ext 7) (some aS) },
           some { fwdFresh with bvlciAddress := some (Address.mk (.ext 7) (some aS)) }) ∧
    decode_lpdu fwdCodecs false fwdPdu =
      .ok (.asLpdu fwdDecoded, some fwdFresh) :=
  c3_amended_forwarded_lift fwdCodecs fwdPdu [0x04] fwdStruct fwdDecoded
    (.ext 7) none rfl rfl rfl rfl rfl

/-- C5 (amended): decode_file_full assigns the record's 1-based number and
timestamp onto the DecodedPacket returned by decode_packet_full before
yielding it; every other field is yielded exactly as returned. -/
theorem c5_amended_posthoc_assignment (c : Codecs) (ra : Bool)
    (ln ts : Nat) (data : Bytes) (dp : DecodedPacket)
    (h : decode_packet_full c ra data = .ok (some dp)) :
    decode_file_full c ra [⟨ln, ts, data⟩] =
      [{ dp with number := some 1, timestamp := some ts }] := by
  simp [decode_file_full, decodeFileFullFrom, h]

/-- C5 (witness): the post-hoc number and timestamp assignment at a
concrete record. -/
theorem c5_witness :
    decode_file_full noCodecs false [⟨15, 9, ethOtherFrame⟩] =
      [{ pdu := ⟨[0x42], ethAddr, ethAddr⟩, number := some 1,
         timestamp := some 9 }] :=
  c5_amended_posthoc_assignment noCodecs false 15 9 ethOtherFrame
    { pdu := ⟨[0x42], ethAddr, ethAddr⟩ } rfl

/-- C6 (amended): an empty raw input yields NoPayload, and a zero-length
payload remaining after peeling yields NoPayload (shown for a bare Ethernet
header with an unknown ethertype and for a UDP datagram whose declared
length is exactly the 8-byte header); but a zero-length payload handed to a
further parser raises a bounds fault instead (see the counterexample). -/
theorem c6_amended_no_payload :
    (∀ (c : Codecs) (ra : Bool),
      decode_packet c ra [] = .ok none ∧
      decode_packet_full c ra [] = .ok none) ∧
    (∀ (c : Codecs) (ra : Bool),
      decode_packet c ra ethEmptyFrame = .ok none ∧
      decode_packet_full c ra ethEmptyFrame = .ok none) ∧
    (∀ (c : Codecs) (ra : Bool),
      decode_packet c ra (udpFrame []) = .ok none ∧
      decode_packet_full c ra (udpFrame []) = .ok none) :=
  ⟨fun _ _ => ⟨rfl, rfl⟩, fun _ _ => ⟨rfl, rfl⟩, fun _ _ => ⟨rfl, rfl⟩⟩

/-- The only fault decode_ethernet raises is its bounds fault. -/
theorem decode_ethernet_error (s : Bytes) (e : Fault)
    (h : decode_ethernet s = .error e) : e = .ethBounds := by
  unfold decode_ethernet at h
  split at h
  · injection h with h1; exact h1.symm
  · exact Except.noConfusion h

/-- The only fault decode_vlan raises is its bounds fault. -/
theorem decode_vlan_error (s : Bytes) (e : Fault)
    (h : decode_vlan s = .error e) : e = .vlanBounds := by
  unfold decode_vlan at h
  split at h
  · injection h with h1; exact h1.symm
  · exact Except.noConfusion h

/-- The only fault decode_ip raises is its bounds fault. -/
theorem decode_ip_error (s : Bytes) (e : Fault)
    (h : decode_ip s = .error e) : e = .ipBounds := by
  unfold decode_ip at h
  split at h
  · injection h with h1; exact h1.symm
  · exact Except.noConfusion h

/-- The only fault decode_udp raises is its bounds fault. -/
theorem decode_udp_error (s : Bytes) (e : Fault)
    (h : decode_udp s = .error e) : e = .udpBounds := by
  unfold decode_udp at h
  split at h
  · injection h with h1; exact h1.symm
  · exact Except.noConfusion h

/-- On a non-empty payload, decode_lpdu never raises a fault. -/
theorem decode_lpdu_ne_error (c : Codecs) (ra : Bool) (p : PDU)
    (hp : p.pduData ≠ []) (e : Fault) : decode_lpdu c ra p ≠ .error e := by
  intro h
  rcases hd : p.pduData with _ | ⟨x, rest⟩
  · exact hp hd
  · simp only [decode_lpdu, hd] at h
    repeat' split at h
    all_goals exact Except.noConfusion h

/-- On a non-empty payload, decode_npdu never raises a fault. -/
theorem decode_npdu_ne_error (c : Codecs) (l : LinkResult)
    (hl : l.pduData ≠ []) (e : Fault) : decode_npdu c l ≠ .error e := by
  intro h
  rcases hd : l.pduData with _ | ⟨x, rest⟩
  · exact hl hd
  · simp only [decode_npdu, hd] at h
    repeat' split at h
    all_goals exact Except.noConfusion h

/-- When the input payload is non-empty and the external codecs only
produce records with non-empty payloads, every link-layer result of
decode_lpdu has a non-empty payload. -/
theorem decode_lpdu_ok_nonempty (c : Codecs) (ra : Bool) (p : PDU)
    (lr : LinkResult) (b : Option LPDU)
    (hp : p.pduData ≠ [])
    (hL : ∀ q l, c.lpduDecode q = some l → l.pduData ≠ [])
    (hB : ∀ k l l2, c.bvllDecode k l = some l2 → l2.pduData ≠ [])
    (h : decode_lpdu c ra p = .ok (lr, b)) : lr.pduData ≠ [] := by
  rcases hd : p.pduData with _ | ⟨x, rest⟩
  · exact absurd hd hp
  · simp only [decode_lpdu, hd] at h
    repeat' split at h
    all_goals first
      | exact Except.noConfusion h
      | (injection h with h1
         injection h1 with h2 h3
         subst h2
         first
           | (simp [LinkResult.pduData, hd]; done)
           | solve_by_elim [hL])

/-- The only faults decode_apdu raises are the address-lift AttributeError
and the propagated APCISequence fault. -/
theorem decode_apdu_error_cases (c : Codecs) (ra : Bool) (n : NPDU) (e : Fault)
    (h : decode_apdu c ra n = .error e) :
    e = .apduLiftAttr ∨ e = .apciFault := by
  simp only [decode_apdu] at h
  repeat' split at h
  all_goals try exact Except.noConfusion h
  all_goals try (injection h with h1; subst h1; simp_all; done)
  all_goals
    (injection h with h1
     subst h1
     rename_i heq
     repeat' split at heq
     all_goals first
       | exact Except.noConfusion heq
       | (injection heq with h2; simp_all))

/-- Unfolding equation of the decode_file loop on a cons cell. -/
theorem decodeFileFrom_cons (c : Codecs) (ra : Bool) (i : Nat)
    (r : PcapRecord) (rest : List PcapRecord) :
    decodeFileFrom c ra i (r :: rest) =
      match decode_packet c ra r.data with
      | .ok (some pkt) =>
        ⟨pkt, i + 1, r.timestamp⟩ :: decodeFileFrom c ra (i + 1) rest
      | .ok none => decodeFileFrom c ra (i + 1) rest
      | .error _ => decodeFileFrom c ra (i + 1) rest := rfl

/-- Membership characterization of the decode_file loop: an item is yielded
exactly when some record decodes successfully, and it carries that record's
index offset by the running enumeration base, plus its timestamp. -/
theorem decodeFileFrom_mem (c : Codecs) (ra : Bool) :
    ∀ (recs : List PcapRecord) (i : Nat) (q : NumberedResult),
      q ∈ decodeFileFrom c ra i recs ↔
        ∃ k rec pkt, recs[k]? = some rec ∧
          decode_packet c ra rec.data = .ok (some pkt) ∧
          q = ⟨pkt, i + k + 1, rec.timestamp⟩ := by
  intro recs
  induction recs with
  | nil => intro i q; simp [decodeFileFrom]
  | cons r rest ih =>
    intro i q
    rw [decodeFileFrom_cons]
    constructor
    · intro hq
      rcases h : decode_packet c ra r.data with e | o
      · rw [h] at hq
        rcases (ih (i + 1) q).mp hq with ⟨k, rec, pkt, hk, hd2, hqe⟩
        refine ⟨k + 1, rec, pkt, by simpa using hk, hd2, ?_⟩
        rw [hqe]
        congr 1
        omega
      · rcases o with _ | pkt
        · rw [h] at hq
          rcases (ih (i + 1) q).mp hq with ⟨k, rec, pkt, hk, hd2, hqe⟩
          refine ⟨k + 1, rec, pkt, by simpa using hk, hd2, ?_⟩
          rw [hqe]
          congr 1
          omega
        · rw [h] at hq
          rcases List.mem_cons.mp hq with hq1 | hq2
          · exact ⟨0, r, pkt, by simp, h, by simpa using hq1⟩
          · rcases (ih (i + 1) q).mp hq2 with ⟨k, rec, pkt2, hk, hd2, hqe⟩
            refine ⟨k + 1, rec, pkt2, by simpa using hk, hd2, ?_⟩
            rw [hqe]
            congr 1
            omega
    · rintro ⟨k, rec, pkt, hk, hd2, hqe⟩
      cases k with
      | zero =>
        rw [List.getElem?_cons_zero] at hk
        injection hk with hk
        subst hk
        rw [hd2, hqe]
        exact List.mem_cons_self _ _
      | succ j =>
        rw [List.getElem?_cons_succ] at hk
        have hmem : q ∈ decodeFileFrom c ra (i + 1) rest :=
          (ih (i + 1) q).mpr ⟨j, rec, pkt, hk, hd2, by rw [hqe]; congr 1; omega⟩
        rcases h : decode_packet c ra r.data with e | o
        · exact hmem
        · rcases o with _ | pkt2
          · exact hmem
          · exact List.mem_cons_of_mem _ hmem

/-- Unfolding equation of the decode_file_full loop on a cons cell. -/
theorem decodeFileFullFrom_cons (c : Codecs) (ra : Bool) (i : Nat)
    (r : PcapRecord) (rest : List PcapRecord) :
    decodeFileFullFrom c ra i (r :: rest) =
      match decode_packet_full c ra r.data with
      | .ok (some pkt) =>
        { pkt with number := some (i + 1), timestamp := some r.timestamp } ::
          decodeFileFullFrom c ra (i + 1) rest
      | .ok none => decodeFileFullFrom c ra (i + 1) rest
      | .error _ => decodeFileFullFrom c ra (i + 1) rest := rfl

/-- Membership characterization of the decode_file_full loop. -/
theorem decodeFileFullFrom_mem (c : Codecs) (ra : Bool) :
    ∀ (recs : List PcapRecord) (i : Nat) (p : DecodedPacket),
      p ∈ decodeFileFullFrom c ra i recs ↔
        ∃ k rec dp, recs[k]? = some rec ∧
          decode_packet_full c ra rec.data = .ok (some dp) ∧
          p = { dp with number := some (i + k + 1),
                        timestamp := some rec.timestamp } := by
  intro recs
  induction recs with
  | nil => intro i p; simp [decodeFileFullFrom]
  | cons r rest ih =>
    intro i p
    rw [decodeFileFullFrom_cons]
    constructor
    · intro hp
      rcases h : decode_packet_full c ra r.data with e | o
      · rw [h] at hp
        rcases (ih (i + 1) p).mp hp with ⟨k, rec, dp, hk, hd2, hpe⟩
        refine ⟨k + 1, rec, dp, by simpa using hk, hd2, ?_⟩
        rw [hpe]
        congr 2
        omega
      · rcases o with _ | dp
        · rw [h] at hp
          rcases (ih (i + 1) p).mp hp with ⟨k, rec, dp, hk, hd2, hpe⟩
          refine ⟨k + 1, rec, dp, by simpa using hk, hd2, ?_⟩
          rw [hpe]
          congr 2
          omega
        · rw [h] at hp
          rcases List.mem_cons.mp hp with hp1 | hp2
          · exact ⟨0, r, dp, by simp, h, by simpa using hp1⟩
          · rcases (ih (i + 1) p).mp hp2 with ⟨k, rec, dp2, hk, hd2, hpe⟩
            refine ⟨k + 1, rec, dp2, by simpa using hk, hd2, ?_⟩
            rw [hpe]
            congr 2
            omega
    · rintro ⟨k, rec, dp, hk, hd2, hpe⟩
      cases k with
      | zero =>
        rw [List.getElem?_cons_zero] at hk
        injection hk with hk
        subst hk
        rw [hd2, hpe]
        exact List.mem_cons_self _ _
      | succ j =>
        rw [List.getElem?_cons_succ] at hk
        have hmem : p ∈ decodeFileFullFrom c ra (i + 1) rest :=
          (ih (i + 1) p).mpr ⟨j, rec, dp, hk, hd2, by rw [hpe]; congr 2; omega⟩
        rcases h : decode_packet_full c ra r.data with e | o
        · exact hmem
        · rcases o with _ | dp2
          · exact hmem
          · exact List.mem_cons_of_mem _ hmem

/-- C8: the per-record sources skip every record that yields NoPayload or
raises a fault, without aborting; every yielded item carries the record's
1-based index and timestamp; and the concrete three-record capture with
only the middle record malformed yields exactly two packets with indices
1 and 3. -/
theorem c8_per_record_isolation :
    (∀ (c : Codecs) (ra : Bool) (recs : List PcapRecord) (q : NumberedResult),
      q ∈ decode_file c ra recs ↔
        ∃ k rec pkt, recs[k]? = some rec ∧
          decode_packet c ra rec.data = .ok (some pkt) ∧
          q = ⟨pkt, k + 1, rec.timestamp⟩) ∧
    (∀ (c : Codecs) (ra : Bool) (recs : List PcapRecord) (p : DecodedPacket),
      p ∈ decode_file_full c ra recs ↔
        ∃ k rec dp, recs[k]? = some rec ∧
          decode_packet_full c ra rec.data = .ok (some dp) ∧
          p = { dp with number := some (k + 1),
                        timestamp := some rec.timestamp }) ∧
    decode_file noCodecs false [recGood1, recBad, recGood3] =
      [⟨.asPdu ⟨[0x42], udpPduSrc, udpPduDst⟩, 1, 11⟩,
       ⟨.asPdu ⟨[0x42], udpPduSrc, udpPduDst⟩, 3, 33⟩] ∧
    decode_file_full noCodecs false [recGood1, recBad, recGood3] =
      [{ pdu := ⟨[0x42], udpPduSrc, udpPduDst⟩, number := some 1,
         timestamp := some 11 },
       { pdu := ⟨[0x42], udpPduSrc, udpPduDst⟩, number := some 3,
         timestamp := some 33 }] := by
  refine ⟨?_, ?_, rfl, rfl⟩
  · intro c ra recs q
    rw [decode_file, decodeFileFrom_mem]
    simp
  · intro c ra recs p
    rw [decode_file_full, decodeFileFullFrom_mem]
    simp

/-- The element of traceStep at index i is the handler result of the tracer
at that index, with the factory restart applied when the handler
terminates. -/
theorem traceStep_getElem {σ Pkt : Type} :
    ∀ (cs : List (TracerFactory σ Pkt)) (cur : List σ) (pkt : Pkt) (i : Nat)
      (fac : TracerFactory σ Pkt) (s : σ),
      cs[i]? = some fac → cur[i]? = some s →
      (traceStep cs cur pkt)[i]? =
        some (match fac.step s pkt with | some t => t | none => fac.init) := by
  intro cs
  induction cs with
  | nil => intro cur pkt i fac s h1 h2; simp at h1
  | cons c0 cs ih =>
    intro cur pkt i fac s h1 h2
    cases cur with
    | nil => simp at h2
    | cons s0 cur =>
      cases i with
      | zero =>
        rw [List.getElem?_cons_zero] at h1 h2
        injection h1 with h1
        injection h2 with h2
        subst h1
        subst h2
        simp [traceStep]
      | succ j =>
        rw [List.getElem?_cons_succ] at h1 h2
        have := ih cur pkt j fac s h1 h2
        simpa [traceStep] using this

/-- C9: a tracer whose handler leaves it in the terminal state while
handling a packet is immediately replaced by a fresh instance from its
factory, so it enters the next packet in its initial state. -/
theorem c9_tracer_restart {σ Pkt : Type} (cs : List (TracerFactory σ Pkt))
    (pkts : List Pkt) (pkt : Pkt) (i : Nat) (fac : TracerFactory σ Pkt)
    (s : σ)
    (h1 : cs[i]? = some fac)
    (h2 : (traceRun cs pkts)[i]? = some s)
    (h3 : fac.step s pkt = none) :
    (traceRun cs (pkts ++ [pkt]))[i]? = some fac.init := by
  have hstep : traceRun cs (pkts ++ [pkt]) =
      traceStep cs (traceRun cs pkts) pkt := by
    simp [traceRun, List.foldl_append]
  rw [hstep, traceStep_getElem cs (traceRun cs pkts) pkt i fac s h1 h2, h3]

/-- C9 (witness): a tracer that terminates on every packet runs the next
packet from its initial state. -/
theorem c9_witness :
    (traceRun [haltTracer] ([5] ++ [6]))[0]? = some haltTracer.init :=
  c9_tracer_restart [haltTracer] [5] 6 0 haltTracer 0 rfl rfl rfl

/-- The only fault decode_npdu raises is its empty-payload index fault. -/
theorem decode_npdu_error_cases (c : Codecs) (l : LinkResult) (e : Fault)
    (h : decode_npdu c l = .error e) : e = .npduIndex := by
  unfold decode_npdu at h
  repeat' split at h
  all_goals first
    | exact Except.noConfusion h
    | (injection h with h1; exact h1.symm)

/-- C10 (counterexample): the decode_npdu fault branch IS reachable from
the pipeline even though the PDU the pipeline builds has a non-empty
payload: a virtual-link frame whose BVLL header consumes the whole payload
(81 0a 00 04) leaves the network stage an empty-payload link record, and
both entry points propagate the out-of-bounds fault. -/
theorem c10_counterexample :
    decode_packet emptyLpduCodecs false (udpFrame [0x81, 0x0a, 0x00, 0x04]) =
      .error .npduIndex ∧
    decode_packet_full emptyLpduCodecs false
        (udpFrame [0x81, 0x0a, 0x00, 0x04]) = .error .npduIndex ∧
    ([0x81, 0x0a, 0x00, 0x04] : Bytes) ≠ [] := by
  refine ⟨rfl, rfl, ?_⟩
  decide

/-- C10 (amended): decode_lpdu and decode_npdu read the first payload byte
without a length guard, raising an out-of-bounds fault on an empty payload
instead of returning the wrong-layer sentinel.  The pipeline's non-empty
payload check makes decode_lpdu's fault branch unreachable from
decode_packet unconditionally; decode_npdu's fault branch, being fed codec
output on the virtual-link path, is unreachable only when the external
codecs return link records with non-empty payloads (and is otherwise
reachable, see the counterexample). -/
theorem c10_empty_payload_fault :
    (∀ (c : Codecs) (ra : Bool) (p : PDU), p.pduData = [] →
      decode_lpdu c ra p = .error .lpduIndex) ∧
    (∀ (c : Codecs) (l : LinkResult), l.pduData = [] →
      decode_npdu c l = .error .npduIndex) ∧
    (∀ (c : Codecs) (ra : Bool) (data : Bytes),
      decode_packet c ra data ≠ .error .lpduIndex) ∧
    (∀ (c : Codecs) (ra : Bool) (data : Bytes),
      (∀ q l, c.lpduDecode q = some l → l.pduData ≠ []) →
      (∀ k l l2, c.bvllDecode k l = some l2 → l2.pduData ≠ []) →
      decode_packet c ra data ≠ .error .npduIndex) := by
  refine ⟨?_, ?_, ?_, ?_⟩
  · intro c ra p hp
    unfold decode_lpdu
    rw [hp]
  · intro c l hl
    unfold decode_npdu
    rw [hl]
  · intro c ra data
    simp only [decode_packet]
    repeat' split
    all_goals try exact fun k => Except.noConfusion k
    · rename_i e1 heq
      have he := decode_ethernet_error data e1 heq
      subst he
      decide
    · rename_i e1 heq
      split at heq
      · split at heq
        · rename_i e2 heq2
          injection heq with k
          subst k
          have hv := decode_vlan_error _ _ heq2
          subst hv
          decide
        · exact Except.noConfusion heq
      · exact Except.noConfusion heq
    · rename_i e1 heq
      split at heq
      · split at heq
        · rename_i e2 heq2
          injection heq with k
          subst k
          have hi := decode_ip_error _ _ heq2
          subst hi
          decide
        · split at heq
          · split at heq
            · rename_i e2 heq2
              injection heq with k
              subst k
              have hu := decode_udp_error _ _ heq2
              subst hu
              decide
            · exact Except.noConfusion heq
          · exact Except.noConfusion heq
      · exact Except.noConfusion heq
    · decide
    · rename_i dataF hdataF addrs src dst hip s1 e1 heq
      exact absurd heq (decode_lpdu_ne_error c ra _ hdataF e1)
    · rename_i s2 e1 heq
      have hn := decode_npdu_error_cases _ _ _ heq
      subst hn
      decide
    · rename_i e1 heq
      rcases decode_apdu_error_cases c ra _ e1 heq with rfl | rfl <;> decide
  · intro c ra data hL hB
    simp only [decode_packet]
    repeat' split
    all_goals try exact fun k => Except.noConfusion k
    · rename_i e1 heq
      have he := decode_ethernet_error data e1 heq
      subst he
      decide
    · rename_i e1 heq
      split at heq
      · split at heq
        · rename_i e2 heq2
          injection heq with k
          subst k
          have hv := decode_vlan_error _ _ heq2
          subst hv
          decide
        · exact Except.noConfusion heq
      · exact Except.noConfusion heq
    · rename_i e1 heq
      split at heq
      · split at heq
        · rename_i e2 heq2
          injection heq with k
          subst k
          have hi := decode_ip_error _ _ heq2
          subst hi
          decide
        · split at heq
          · split at heq
            · rename_i e2 heq2
              injection heq with k
              subst k
              have hu := decode_udp_error _ _ heq2
              subst hu
              decide
            · exact Except.noConfusion heq
          · exact Except.noConfusion heq
      · exact Except.noConfusion heq
    · decide
    · rename_i dataF hdataF addrs src dst hip s1 e1 heq
      exact absurd heq (decode_lpdu_ne_error c ra _ hdataF e1)
    · rename_i dataF hdataF addrs src dst hip s1 lpdu bpdu hlp s2 e1 heq
      exact absurd heq (decode_npdu_ne_error c lpdu
        (decode_lpdu_ok_nonempty c ra _ lpdu bpdu hdataF hL hB hlp) e1)
    · rename_i e1 heq
      rcases decode_apdu_error_cases c ra _ e1 heq with rfl | rfl <;> decide

/-- C10 (witness): the out-of-bounds faults at concrete empty payloads, and
both unreachability parts at a concrete frame under the all-faulting
oracle, whose codecs vacuously return only non-empty link records. -/
theorem c10_witness :
    decode_lpdu noCodecs false ⟨[], aS, aD⟩ = .error .lpduIndex ∧
    decode_npdu noCodecs (.asPdu ⟨[], aS, aD⟩) = .error .npduIndex ∧
    decode_packet noCodecs false ethOtherFrame ≠ .error .lpduIndex ∧
    decode_packet noCodecs false ethOtherFrame ≠ .error .npduIndex :=
  ⟨c10_empty_payload_fault.1 noCodecs false ⟨[], aS, aD⟩ rfl,
   c10_empty_payload_fault.2.1 noCodecs (.asPdu ⟨[], aS, aD⟩) rfl,
   c10_empty_payload_fault.2.2.1 noCodecs false ethOtherFrame,
   c10_empty_payload_fault.2.2.2 noCodecs false ethOtherFrame
     (fun q l h => Option.noConfusion h)
     (fun k l l2 h => Option.noConfusion h)⟩

end Analysis
